import Mathlib

/-!
Shallow embedding of `ddtrace/internal/writer.py`: the bounded trace queue `Q`
(put with random overwrite-on-full, accept/drop statistics, reset_stats, and the
drain-everything `get`) and the `AgentWriter` flush pipeline (`_apply_filters`,
`flush_queue`, `_log_error_status`).

Modelling conventions:
- a span is opaque (`Nat`); a trace batch is a list of spans, its Python `len`
  is `List.length` (a `list` always has `__len__`, so the `hasattr` fallback
  branch of `_update_stats` is unreachable for the batches the writer enqueues);
- `random.randrange(0, qsize)` is modelled by an explicit draw `r`, reduced
  modulo `qsize`; a uniformly distributed `r` induces the uniform index;
- each mutex-protected critical section of the Python code is one atomic step;
  interleavings of producer puts, worker drains and stats resets are traces of
  such atomic operations (`QOp`);
- exceptions are explicit `Except` values; a caught exception is a handled
  `.error` branch.
-/

/-- A span; only its identity matters to the pipeline, never its content. -/
abbrev Span := Nat

/-- A trace batch: an ordered list of spans. Python `len(item)` is `List.length`. -/
abbrev Batch := List Span

/-- Constant `MAX_TRACES = 1000`. -/
def MAX_TRACES : Nat := 1000

/-- Constant `LOG_ERR_INTERVAL = 60`. -/
def LOG_ERR_INTERVAL : Nat := 60

/-- The state of a `Q` instance: the backing queue storage plus the six
statistics counters initialised to zero in `Q.__init__`. -/
structure QState where
  maxsize : Nat
  queue : List Batch
  dropped : Nat
  accepted : Nat
  accepted_sum : Nat
  accepted_min : Nat
  accepted_max : Nat
  accepted_avg : Nat
deriving Repr, DecidableEq

namespace Q

/-- Constructor `Q(maxsize)`: empty storage, all counters zero. -/
def init (maxsize : Nat) : QState :=
  { maxsize := maxsize
    queue := []
    dropped := 0
    accepted := 0
    accepted_sum := 0
    accepted_min := 0
    accepted_max := 0
    accepted_avg := 0 }

/-- Python `math.ceil(a / float(b))` for naturals (exact rational ceiling). -/
def ceilDiv (a b : Nat) : Nat := (a + b - 1) / b

/-- Method `Q._update_stats(item)`: run with `self.mutex` held.  A batch is a list, so
`hasattr(item, '__len__')` holds and `item_length = len(item)`. -/
def update_stats (s : QState) (item : Batch) : QState :=
  let item_length := item.length
  let accepted := s.accepted + 1
  let accepted_sum := s.accepted_sum + item_length
  { s with
    accepted := accepted
    accepted_sum := accepted_sum
    accepted_min := if 0 < s.accepted_min then min s.accepted_min item_length else item_length
    accepted_max := if 0 < s.accepted_max then max s.accepted_max item_length else item_length
    accepted_avg := ceilDiv accepted_sum accepted }

/-- The error raised by the base-class `Queue.put(item, block=False)` on a full
queue (`Full`), caught inside `Q.put`. -/
inductive QueueFull | full
deriving Repr, DecidableEq

/-- Base-class `Queue.put(self, item, block=False)`: raises `Full` when
`0 < maxsize <= qsize`, otherwise appends the item to the backing storage. -/
def basePut (s : QState) (item : Batch) : Except QueueFull QState :=
  if 0 < s.maxsize ∧ s.maxsize ≤ s.queue.length then .error .full
  else .ok { s with queue := s.queue ++ [item] }

/-- Method `Q.put(item)` with the random draw `r` made explicit; the result is the new
state, and the `Except` layer records whether any exception escapes to the
caller (none ever does: the `Full` raised by `basePut` is always handled).

In the `Full` handler the code re-checks `qsize` under `self.mutex`: if the
queue is still non-empty it overwrites the slot `random.randrange(0, qsize)`
(modelled as `r % qsize`), counts the item as dropped, and updates the accept
statistics for the new item.  If a concurrent drain emptied the queue it
retries `self.put(item)`; at atomic-step granularity the retried put runs on
the empty queue it just observed, so it is unfolded here to its effect on an
empty queue: a plain append followed by the stats update. -/
def putE (s : QState) (item : Batch) (r : Nat) : Except QueueFull QState :=
  match basePut s item with
  | .ok s' => .ok (update_stats s' item)
  | .error .full =>
    let qsize := s.queue.length
    if qsize ≠ 0 then
      let idx := r % qsize
      .ok (update_stats
        { s with queue := s.queue.set idx item, dropped := s.dropped + 1 } item)
    else
      .ok (update_stats { s with queue := s.queue ++ [item] } item)

/-- Method `Q.put(item)` as a state transformer (the exception layer stripped; `putE`
is proved to always return `.ok`). -/
def put (s : QState) (item : Batch) (r : Nat) : QState :=
  match putE s item r with
  | .ok s' => s'
  | .error _ => s

/-- The error raised by `Queue.get(block=False)` on an empty queue (`Empty`),
caught by the worker's `run`. -/
inductive QueueEmpty | empty
deriving Repr, DecidableEq

/-- Method `Q.get(block=False)` through the overridden `Q._get`: raises `Empty` when
nothing is queued, otherwise returns the entire backing storage and leaves the
queue reinitialised (empty). -/
def get (s : QState) : Except QueueEmpty (List Batch × QState) :=
  if s.queue.length = 0 then .error .empty
  else .ok (s.queue, { s with queue := [] })

/-- Method `Q.reset_stats()`: returns the current six counters and zeroes all of them,
in one critical section. -/
def reset_stats (s : QState) : (Nat × Nat × Nat × Nat × Nat × Nat) × QState :=
  ((s.dropped, s.accepted, s.accepted_sum, s.accepted_min, s.accepted_max, s.accepted_avg),
   { s with
     dropped := 0
     accepted := 0
     accepted_sum := 0
     accepted_min := 0
     accepted_max := 0
     accepted_avg := 0 })

end Q

/-- One atomic operation on the shared queue: a producer `put` (with its random
draw), a worker drain (`get`, the `Empty` case being a no-op on the state), or
a stats reset. Interleavings are lists of these. -/
inductive QOp
  | put (item : Batch) (r : Nat)
  | drain
  | reset
deriving Repr, DecidableEq

/-- Effect of one atomic operation on the queue state. -/
def QOp.step (s : QState) : QOp → QState
  | .put item r => Q.put s item r
  | .drain =>
    match Q.get s with
    | .ok (_, s') => s'
    | .error _ => s
  | .reset => (Q.reset_stats s).2

/-- Run a trace of atomic operations. -/
def Q.run (s : QState) (ops : List QOp) : QState :=
  ops.foldl QOp.step s

/-- Number of insert attempts (producer `put` calls) in a trace. -/
def putAttempts : List QOp → Nat
  | [] => 0
  | .put _ _ :: ops => putAttempts ops + 1
  | _ :: ops => putAttempts ops

/-- The items of the `put` operations of a trace, in order. -/
def putItems : List QOp → List Batch
  | [] => []
  | .put b _ :: ops => b :: putItems ops
  | _ :: ops => putItems ops

/-- Whether, in state `s`, the operation is a `put` that takes the
overwrite path of `Q.put` (base put raises `Full` and the re-checked
`qsize` is non-zero). -/
def isOverwritePut (s : QState) : QOp → Bool
  | .put _ _ =>
    decide (0 < s.maxsize ∧ s.maxsize ≤ s.queue.length) && decide (s.queue.length ≠ 0)
  | _ => false

/-- Number of overwrite events along a trace, following the evolving state. -/
def overwriteCount (s : QState) : List QOp → Nat
  | [] => 0
  | op :: ops => (if isOverwritePut s op then 1 else 0) + overwriteCount (QOp.step s op) ops

/-! ### The AgentWriter flush pipeline -/

/-- A Python exception raised by a filter's `process_trace`, carried opaquely. -/
abbrev PyExn := String

/-- A filter stage: `filtr.process_trace(trace)` returns a (possibly modified)
trace, `None` (the drop sentinel, modelled as `none`), or raises. -/
abbrev TraceFilter := Batch → Except PyExn (Option Batch)

/-- The inner loop of `AgentWriter._apply_filters` for one trace: apply each
filter in order to the running trace, breaking out as soon as one returns
`None`; an exception propagates. -/
def runFilterLoop (filters : List TraceFilter) (trace : Batch) :
    Except PyExn (Option Batch) :=
  match filters with
  | [] => .ok (some trace)
  | f :: rest =>
    match f trace with
    | .error e => .error e
    | .ok none => .ok none
    | .ok (some t) => runFilterLoop rest t

/-- The outer loop of `AgentWriter._apply_filters`: each surviving trace is
appended to `filtered_traces`; a filter exception aborts the loop (the partial
result is discarded by the caller, so it is not returned). -/
def filterLoop (filters : List TraceFilter) : List Batch → Except PyExn (List Batch)
  | [] => .ok []
  | t :: ts =>
    match runFilterLoop filters t with
    | .error e => .error e
    | .ok none => filterLoop filters ts
    | .ok (some t') =>
      match filterLoop filters ts with
      | .error e => .error e
      | .ok rest => .ok (t' :: rest)

/-- Method `AgentWriter._apply_filters(traces)`: identity when `self._filters is None`. -/
def apply_filters (filters : Option (List TraceFilter)) (traces : List Batch) :
    Except PyExn (List Batch) :=
  match filters with
  | some fs => filterLoop fs traces
  | none => .ok traces

/-- The `rate_by_service` table of a collector response body, carried opaquely
(the float rates are never inspected by the pipeline, only forwarded). -/
abbrev RateTable := List (String × Int)

/-- The JSON object returned by `response.get_json()` when truthy; only the
presence of the `rate_by_service` key matters to the pipeline.  A falsy
`get_json()` result is `none` at the `getJson` field of the response. -/
structure JsonObj where
  rate_by_service : Option RateTable
deriving Repr, DecidableEq

/-- An `api.Response`: HTTP status plus the parsed body. -/
structure ApiResponse where
  status : Nat
  getJson : Option JsonObj
deriving Repr, DecidableEq

/-- The per-payload element of `traces_responses`: either an `Exception`
instance or an HTTP response. -/
abbrev Outcome := Except PyExn ApiResponse

/-- Tuple `payload.stats = (size, total_traces, total_spans)`. -/
structure PayloadMeta where
  size : Nat
  total_traces : Nat
  total_spans : Nat
deriving Repr, DecidableEq

/-- The response loop of `AgentWriter.flush_queue`, accumulating in order the
responses handed to `_log_error_status` and the tables handed to
`set_sample_rate_by_service` (the latter only when a priority sampler is
configured). -/
def processOutcomes (samplerPresent : Bool) :
    List (Outcome × PayloadMeta) → List Outcome × List RateTable
  | [] => ([], [])
  | (response, _) :: rest =>
    let acc := processOutcomes samplerPresent rest
    match response with
    | .error e => (.error e :: acc.1, acc.2)
    | .ok resp =>
      if 400 ≤ resp.status then (.ok resp :: acc.1, acc.2)
      else if samplerPresent then
        match resp.getJson with
        | some j =>
          match j.rate_by_service with
          | some tbl => (acc.1, tbl :: acc.2)
          | none => acc
        | none => acc
      else acc

instance {ε α : Type _} [DecidableEq ε] [DecidableEq α] : DecidableEq (Except ε α) :=
  fun x y =>
  match x, y with
  | .error a, .error b =>
    if h : a = b then .isTrue (congrArg Except.error h)
    else .isFalse fun hc => h (Except.error.inj hc)
  | .error _, .ok _ => .isFalse fun hc => Except.noConfusion hc
  | .ok _, .error _ => .isFalse fun hc => Except.noConfusion hc
  | .ok a, .ok b =>
    if h : a = b then .isTrue (congrArg Except.ok h)
    else .isFalse fun hc => h (Except.ok.inj hc)

/-- Observable effects of one `AgentWriter.flush_queue(traces)` call. -/
structure FlushResult where
  /-- the argument passed to `api.send_traces`, when that call is reached -/
  sent : Option (List Batch)
  /-- the exception logged by `log.error('error while filtering traces: ...')` -/
  filter_error : Option PyExn
  /-- responses handed to `_log_error_status`, in order -/
  error_reports : List Outcome
  /-- tables handed to `priority_sampler.set_sample_rate_by_service`, in order -/
  sampler_updates : List RateTable
  /-- value emitted as the `traces.filtered` stat, when stats are enabled -/
  traces_filtered : Option Int
deriving Repr, DecidableEq

/-- Method `AgentWriter.flush_queue(traces)`: capture the pre-filter length, apply the
filters (an exception logs and returns, aborting the cycle), send the filtered
traces through the transport (`send_traces`, supplied as an oracle returning
one `(response, payload)` pair per payload), and walk the responses. -/
def flush_queue (send_stats : Bool) (filters : Option (List TraceFilter))
    (samplerPresent : Bool)
    (send_traces : List Batch → List (Outcome × PayloadMeta))
    (traces : List Batch) : FlushResult :=
  let traces_flush_length := traces.length
  match apply_filters filters traces with
  | .error e =>
    { sent := none
      filter_error := some e
      error_reports := []
      sampler_updates := []
      traces_filtered := none }
  | .ok filtered =>
    let responses := send_traces filtered
    let acc := processOutcomes samplerPresent responses
    { sent := some filtered
      filter_error := none
      error_reports := acc.1
      sampler_updates := acc.2
      traces_filtered :=
        if send_stats then some ((filtered.length : Int) - (traces_flush_length : Int))
        else none }

/-- The drain-and-flush portion of `AgentWriter.run`: a non-blocking `get` of
everything queued, flushed in one cycle; the `Empty` exception is swallowed and
no flush happens. -/
def run_tick (send_stats : Bool) (filters : Option (List TraceFilter))
    (samplerPresent : Bool)
    (send_traces : List Batch → List (Outcome × PayloadMeta))
    (s : QState) : QState × Option FlushResult :=
  match Q.get s with
  | .error .empty => (s, none)
  | .ok (traces, s') =>
    (s', some (flush_queue send_stats filters samplerPresent send_traces traces))

/-! ### `_log_error_status` rate limiting -/

/-- Method `AgentWriter._log_error_status(response)` reduced to its level decision:
given `self._last_error_ts` and the current monotonic time, returns whether the
line is logged at error level (`true`) or debug level (`false`), and the new
`_last_error_ts`. -/
def log_error_status (last_error_ts : Nat) (now : Nat) : Bool × Nat :=
  if last_error_ts + LOG_ERR_INTERVAL < now then (true, now) else (false, last_error_ts)

/-- Fold `_log_error_status` over a sequence of failure times, recording for
each the time and the level used. -/
def logSeq (last_error_ts : Nat) : List Nat → List (Nat × Bool)
  | [] => []
  | t :: ts =>
    let step := log_error_status last_error_ts t
    (t, step.1) :: logSeq step.2 ts

/-- The times of the failures that are logged at full (error) severity. -/
def errorLogTimes (last_error_ts : Nat) : List Nat → List Nat
  | [] => []
  | t :: ts =>
    if last_error_ts + LOG_ERR_INTERVAL < t then t :: errorLogTimes t ts
    else errorLogTimes last_error_ts ts

/-! ### Derived views and scenario data used by the theorems -/

/-- Batch A of the capacity-2 scenario: 3 spans. -/
def batchA : Batch := [1, 2, 3]

/-- Batch B of the capacity-2 scenario: 2 spans. -/
def batchB : Batch := [4, 5]

/-- Batch C of the capacity-2 scenario: 5 spans. -/
def batchC : Batch := [6, 7, 8, 9, 10]

/-- Capacity 2, enqueue A, B, C in order with no drain; `d` is the random draw
of the overflowing third put. -/
def scenarioABC (d : Nat) : QState :=
  Q.run (Q.init 2) [QOp.put batchA 0, QOp.put batchB 0, QOp.put batchC d]

/-- The five accept-statistics counters of `Q`, viewed on their own. -/
structure AccStats where
  accepted : Nat
  accepted_sum : Nat
  accepted_min : Nat
  accepted_max : Nat
  accepted_avg : Nat
deriving Repr, DecidableEq

/-- The accept-statistics fields of a queue state. -/
def QState.accStats (s : QState) : AccStats :=
  ⟨s.accepted, s.accepted_sum, s.accepted_min, s.accepted_max, s.accepted_avg⟩

/-- The effect of `Q._update_stats` on the accept statistics, for an item of
length `len`. -/
def AccStats.update (v : AccStats) (len : Nat) : AccStats :=
  { accepted := v.accepted + 1
    accepted_sum := v.accepted_sum + len
    accepted_min := if 0 < v.accepted_min then min v.accepted_min len else len
    accepted_max := if 0 < v.accepted_max then max v.accepted_max len else len
    accepted_avg := Q.ceilDiv (v.accepted_sum + len) (v.accepted + 1) }

/-- The minimum of a list of lengths (0 for the empty list). -/
def foldlMin : List Nat → Nat
  | [] => 0
  | n :: ns => ns.foldl min n

/-- The maximum of a list of lengths (0 for the empty list). -/
def foldlMax : List Nat → Nat
  | [] => 0
  | n :: ns => ns.foldl max n

/-- The outcome of running the whole filter loop on one trace, with a raised
exception collapsed to a drop; used only to characterize runs of the loop
that are already known not to raise. -/
def chainResult (filters : List TraceFilter) (t : Batch) : Option Batch :=
  match runFilterLoop filters t with
  | .ok o => o
  | .error _ => none

/-- Whether the filter loop drops the trace via the `None` sentinel. -/
def droppedByChain (filters : List TraceFilter) (t : Batch) : Bool :=
  match runFilterLoop filters t with
  | .ok none => true
  | _ => false

/-- The spec's failure notion for one send outcome: a transport-level
exception, or an HTTP status `>= 400`. -/
def isFailureOutcome : Outcome → Bool
  | .error _ => true
  | .ok resp => 400 ≤ resp.status

/-- The spec's success-feedback notion: the `rate_by_service` table of a
successful (non-exception, status `< 400`) response body, if present. -/
def successRateTable : Outcome → Option RateTable
  | .error _ => none
  | .ok resp => if 400 ≤ resp.status then none else resp.getJson.bind JsonObj.rate_by_service

/-- Producer puts of a list of (batch, draw) pairs, in order. -/
def putSeq (s : QState) (items : List (Batch × Nat)) : QState :=
  items.foldl (fun s' p => Q.put s' p.1 p.2) s

/-! ### Characterization of `Q.put` -/

/-- Lemma: `Q.put` takes the overwrite path exactly when the base put observes a full
bounded queue; since a full bounded queue is non-empty, the emptied-in-between
retry branch never fires at atomic-step granularity. -/
theorem Q.put_eq (s : QState) (item : Batch) (r : Nat) :
    Q.put s item r =
      if 0 < s.maxsize ∧ s.maxsize ≤ s.queue.length then
        Q.update_stats
          { s with queue := s.queue.set (r % s.queue.length) item,
                   dropped := s.dropped + 1 } item
      else Q.update_stats { s with queue := s.queue ++ [item] } item := by
  by_cases h : 0 < s.maxsize ∧ s.maxsize ≤ s.queue.length
  · have hq : s.queue.length ≠ 0 := by omega
    rw [if_pos h]
    simp only [Q.put, Q.putE, Q.basePut, if_pos h, if_pos hq]
  · rw [if_neg h]
    simp only [Q.put, Q.putE, Q.basePut, if_neg h]

theorem Q.update_stats_queue (s : QState) (item : Batch) :
    (Q.update_stats s item).queue = s.queue := rfl

theorem Q.update_stats_dropped (s : QState) (item : Batch) :
    (Q.update_stats s item).dropped = s.dropped := rfl

theorem Q.update_stats_maxsize (s : QState) (item : Batch) :
    (Q.update_stats s item).maxsize = s.maxsize := rfl

theorem Q.put_maxsize (s : QState) (item : Batch) (r : Nat) :
    (Q.put s item r).maxsize = s.maxsize := by
  rw [Q.put_eq]; split <;> rfl

theorem Q.put_accepted (s : QState) (item : Batch) (r : Nat) :
    (Q.put s item r).accepted = s.accepted + 1 := by
  rw [Q.put_eq]; split <;> rfl

theorem Q.put_dropped (s : QState) (item : Batch) (r : Nat) :
    (Q.put s item r).dropped
      = s.dropped + (if 0 < s.maxsize ∧ s.maxsize ≤ s.queue.length then 1 else 0) := by
  rw [Q.put_eq]; split <;> rfl

theorem Q.drain_step_stats (s : QState) :
    (QOp.step s .drain).dropped = s.dropped
      ∧ (QOp.step s .drain).accepted = s.accepted
      ∧ (QOp.step s .drain).accepted_sum = s.accepted_sum
      ∧ (QOp.step s .drain).accepted_min = s.accepted_min
      ∧ (QOp.step s .drain).accepted_max = s.accepted_max
      ∧ (QOp.step s .drain).accepted_avg = s.accepted_avg := by
  by_cases h : s.queue.length = 0 <;> simp [QOp.step, Q.get, h]

/-- Setting an index inside the bounds puts the written element in the list. -/
theorem mem_set_of_lt {α : Type _} (l : List α) (i : Nat) (a : α) (h : i < l.length) :
    a ∈ l.set i a := by
  induction l generalizing i with
  | nil => simp at h
  | cons x xs ih =>
    cases i with
    | zero => simp [List.set]
    | succ n =>
      simp only [List.set]
      exact List.mem_cons_of_mem _ (ih n (by simpa using h))

theorem Q.run_cons (s : QState) (op : QOp) (ops : List QOp) :
    Q.run s (op :: ops) = Q.run (QOp.step s op) ops := rfl

theorem isOverwritePut_put (s : QState) (item : Batch) (r : Nat) :
    isOverwritePut s (QOp.put item r)
      = decide (0 < s.maxsize ∧ s.maxsize ≤ s.queue.length) := by
  simp only [isOverwritePut]
  by_cases h : 0 < s.maxsize ∧ s.maxsize ≤ s.queue.length
  · have hq : s.queue.length ≠ 0 := by omega
    simp [h, hq]
  · simp [h]

/-! ### C9: reset_stats snapshots and zeroes -/

/-- C9: `reset_stats` returns the six current counter values and zeroes all of
them, so a second call with no intervening inserts returns `(0,0,0,0,0,0)`. -/
theorem reset_stats_snapshot_and_idempotent (s : QState) :
    (Q.reset_stats s).1
        = (s.dropped, s.accepted, s.accepted_sum,
           s.accepted_min, s.accepted_max, s.accepted_avg)
      ∧ (Q.reset_stats s).2.dropped = 0
      ∧ (Q.reset_stats s).2.accepted = 0
      ∧ (Q.reset_stats s).2.accepted_sum = 0
      ∧ (Q.reset_stats s).2.accepted_min = 0
      ∧ (Q.reset_stats s).2.accepted_max = 0
      ∧ (Q.reset_stats s).2.accepted_avg = 0
      ∧ (Q.reset_stats (Q.reset_stats s).2).1 = (0, 0, 0, 0, 0, 0) :=
  ⟨rfl, rfl, rfl, rfl, rfl, rfl, rfl, rfl⟩

/-! ### C2: put never raises, overwrites at capacity -/

/-- C2: for every item and queue state, `Q.put` returns normally (the `Full`
raised by the base-class put is always handled, so no exception reaches the
caller), the item is always inserted, and at capacity the insert completes by
overwriting an existing slot: occupancy is unchanged and the loss shows up
only as `dropped` (with the new item still counted `accepted`). -/
theorem put_never_raises (s : QState) (item : Batch) (r : Nat) :
    Q.putE s item r = Except.ok (Q.put s item r)
      ∧ item ∈ (Q.put s item r).queue
      ∧ ((0 < s.maxsize ∧ s.maxsize ≤ s.queue.length) →
          (Q.put s item r).queue.length = s.queue.length
            ∧ (Q.put s item r).dropped = s.dropped + 1
            ∧ (Q.put s item r).accepted = s.accepted + 1) := by
  refine ⟨?_, ?_, ?_⟩
  · by_cases h : 0 < s.maxsize ∧ s.maxsize ≤ s.queue.length
    · have hq : s.queue.length ≠ 0 := by omega
      simp only [Q.put, Q.putE, Q.basePut, if_pos h, if_pos hq]
    · simp only [Q.put, Q.putE, Q.basePut, if_neg h]
  · rw [Q.put_eq]
    split
    · next h =>
      rw [Q.update_stats_queue]
      have hr : r % s.queue.length < s.queue.length := Nat.mod_lt _ (by omega)
      exact mem_set_of_lt s.queue (r % s.queue.length) item hr
    · rw [Q.update_stats_queue]
      simp
  · intro h
    rw [Q.put_eq, if_pos h]
    refine ⟨?_, rfl, rfl⟩
    rw [Q.update_stats_queue]
    simp

/-- Witness for C2 at a concrete full queue (capacity 1 holding one batch). -/
theorem put_never_raises_witness :
    Q.putE { Q.init 1 with queue := [[9]] } [3] 0
        = Except.ok (Q.put { Q.init 1 with queue := [[9]] } [3] 0)
      ∧ [3] ∈ (Q.put { Q.init 1 with queue := [[9]] } [3] 0).queue
      ∧ (Q.put { Q.init 1 with queue := [[9]] } [3] 0).queue.length
          = ([[9]] : List Batch).length
      ∧ (Q.put { Q.init 1 with queue := [[9]] } [3] 0).dropped = 0 + 1
      ∧ (Q.put { Q.init 1 with queue := [[9]] } [3] 0).accepted = 0 + 1 := by
  have h := put_never_raises { Q.init 1 with queue := [[9]] } [3] 0
  exact ⟨h.1, h.2.1, h.2.2 (by decide)⟩

/-! ### C1: the accepted/dropped accounting identity -/

/-- C1 counterexample: two puts into a capacity-1 queue are two insert
attempts, but the overwriting put increments both `dropped` and `accepted`,
so `accepted + dropped = 3 ≠ 2`. -/
theorem accepted_plus_dropped_ne_attempts :
    ¬ ((Q.run (Q.init 1) [QOp.put [0] 0, QOp.put [1] 0]).accepted
        + (Q.run (Q.init 1) [QOp.put [0] 0, QOp.put [1] 0]).dropped
        = putAttempts [QOp.put [0] 0, QOp.put [1] 0]) := by decide

/-- C1 (amended): since the last stats reset and under any interleaving of
atomic puts and drains, `accepted` equals the total number of insert attempts,
and `accepted + dropped` equals attempts plus the number of overwrite events
(an overwriting insert is counted both dropped and accepted). -/
theorem accepted_dropped_accounting (s : QState) (ops : List QOp)
    (hreset : QOp.reset ∉ ops) :
    (Q.run s ops).accepted = s.accepted + putAttempts ops
      ∧ (Q.run s ops).dropped = s.dropped + overwriteCount s ops
      ∧ (Q.run s ops).accepted + (Q.run s ops).dropped
          = s.accepted + s.dropped + putAttempts ops + overwriteCount s ops := by
  have main : ∀ (ops : List QOp) (s : QState), QOp.reset ∉ ops →
      (Q.run s ops).accepted = s.accepted + putAttempts ops
        ∧ (Q.run s ops).dropped = s.dropped + overwriteCount s ops := by
    intro ops
    induction ops with
    | nil => intro s _; exact ⟨rfl, rfl⟩
    | cons op ops ih =>
      intro s hr
      have hr' : QOp.reset ∉ ops := fun h => hr (List.mem_cons_of_mem _ h)
      have hop : op ≠ QOp.reset := fun h => hr (h ▸ List.mem_cons_self _ _)
      rw [Q.run_cons]
      obtain ⟨ihA, ihD⟩ := ih (QOp.step s op) hr'
      cases op with
      | put item r =>
        have hst : QOp.step s (QOp.put item r) = Q.put s item r := rfl
        rw [hst] at ihA ihD ⊢
        have hpa : putAttempts (QOp.put item r :: ops) = putAttempts ops + 1 := rfl
        have hoc : overwriteCount s (QOp.put item r :: ops)
            = (if isOverwritePut s (QOp.put item r) then 1 else 0)
              + overwriteCount (Q.put s item r) ops := rfl
        refine ⟨?_, ?_⟩
        · rw [ihA, Q.put_accepted, hpa]
          omega
        · rw [ihD, Q.put_dropped, hoc]
          have hiso : (if isOverwritePut s (QOp.put item r) = true then (1 : Nat) else 0)
              = (if 0 < s.maxsize ∧ s.maxsize ≤ s.queue.length then (1 : Nat) else 0) := by
            rw [isOverwritePut_put]
            by_cases h : 0 < s.maxsize ∧ s.maxsize ≤ s.queue.length <;> simp [h]
          rw [hiso]
          omega
      | drain =>
        obtain ⟨hd, ha, -, -, -, -⟩ := Q.drain_step_stats s
        have hpa : putAttempts (QOp.drain :: ops) = putAttempts ops := rfl
        have hoc : overwriteCount s (QOp.drain :: ops)
            = overwriteCount (QOp.step s .drain) ops := by
          simp [overwriteCount, isOverwritePut]
        refine ⟨?_, ?_⟩
        · rw [ihA, ha, hpa]
        · rw [ihD, hd, hoc]
      | reset => exact absurd rfl hop
  obtain ⟨hA, hD⟩ := main ops s hreset
  exact ⟨hA, hD, by omega⟩

/-! ### C4: the capacity-2 A/B/C scenario -/

/-- C4: after enqueuing A(3 spans), B(2 spans), C(5 spans) into a capacity-2
queue, exactly 2 batches remain, the queue holds C together with exactly one
of A or B selected by the uniform draw over the current occupancy (each of the
two equiprobable draws yields one of the two outcomes), and `dropped = 1`,
`accepted = 3`. -/
theorem scenario_abc_overflow (d : Nat) :
    (scenarioABC d).queue.length = 2
      ∧ (scenarioABC d).dropped = 1
      ∧ (scenarioABC d).accepted = 3
      ∧ (scenarioABC d).queue = (if d % 2 = 0 then [batchC, batchB] else [batchA, batchC])
      ∧ ((List.range 2).filter
            (fun i => decide ((scenarioABC i).queue = [batchC, batchB]))).length = 1
      ∧ ((List.range 2).filter
            (fun i => decide ((scenarioABC i).queue = [batchA, batchC]))).length = 1 := by
  have h2 : Q.put (Q.put (Q.init 2) batchA 0) batchB 0
      = { maxsize := 2, queue := [batchA, batchB], dropped := 0, accepted := 2,
          accepted_sum := 5, accepted_min := 2, accepted_max := 3, accepted_avg := 3 } := by
    decide
  have key : scenarioABC d
      = Q.update_stats
          { maxsize := 2, queue := [batchA, batchB].set (d % 2) batchC, dropped := 1,
            accepted := 2, accepted_sum := 5, accepted_min := 2, accepted_max := 3,
            accepted_avg := 3 } batchC := by
    show Q.put (Q.put (Q.put (Q.init 2) batchA 0) batchB 0) batchC d = _
    rw [h2, Q.put_eq, if_pos (by decide)]
    simp
  rcases Nat.mod_two_eq_zero_or_one d with hm | hm <;> rw [key, hm] <;> decide

/-! ### C6: rate-limited error logging -/

/-- Every error-level log time lies strictly more than `LOG_ERR_INTERVAL`
after the `_last_error_ts` in force when the failure sequence started. -/
theorem errorLogTimes_gt (last : Nat) (ts : List Nat) :
    ∀ x ∈ errorLogTimes last ts, last + LOG_ERR_INTERVAL < x := by
  induction ts generalizing last with
  | nil => intro x hx; simp [errorLogTimes] at hx
  | cons t ts ih =>
    intro x hx
    by_cases h : last + LOG_ERR_INTERVAL < t
    · rw [errorLogTimes, if_pos h] at hx
      rcases List.mem_cons.mp hx with rfl | hx'
      · exact h
      · have := ih t x hx'
        omega
    · rw [errorLogTimes, if_neg h] at hx
      exact ih last x hx

/-- Consecutive (hence all) error-level log times are more than one cooldown
window apart. -/
theorem errorLogTimes_pairwise (last : Nat) (ts : List Nat) :
    List.Pairwise (fun a b => a + LOG_ERR_INTERVAL < b) (errorLogTimes last ts) := by
  induction ts generalizing last with
  | nil => simp [errorLogTimes]
  | cons t ts ih =>
    by_cases h : last + LOG_ERR_INTERVAL < t
    · rw [errorLogTimes, if_pos h]
      exact List.Pairwise.cons (fun x hx => errorLogTimes_gt t ts x hx) (ih t)
    · rw [errorLogTimes, if_neg h]
      exact ih last

/-- The error-level entries of the log sequence are exactly `errorLogTimes`,
and every failure produces exactly one log line. -/
theorem logSeq_error_entries (last : Nat) (ts : List Nat) :
    ((logSeq last ts).filterMap (fun p => if p.2 then some p.1 else none))
        = errorLogTimes last ts
      ∧ (logSeq last ts).length = ts.length := by
  induction ts generalizing last with
  | nil => exact ⟨rfl, rfl⟩
  | cons t ts ih =>
    by_cases h : last + LOG_ERR_INTERVAL < t
    · constructor
      · rw [logSeq, errorLogTimes, if_pos h]
        simp only [log_error_status, if_pos h, List.filterMap_cons, if_true]
        exact congrArg (t :: ·) (ih t).1
      · rw [logSeq]
        simp only [List.length_cons, (ih _).2]
    · constructor
      · rw [logSeq, errorLogTimes, if_neg h]
        simp only [log_error_status, if_neg h, List.filterMap_cons, if_false]
        exact (ih last).1
      · rw [logSeq]
        simp only [List.length_cons, (ih _).2]

/-- C6: for every sequence of failure times reported to `_log_error_status`,
each failure is logged exactly once (at error or at debug level), the times
logged at full (error) severity are pairwise more than `LOG_ERR_INTERVAL = 60`
apart, and hence any window of 60 time units contains at most one full-severity
log; every other failure in such a window gets the lower (debug) severity. -/
theorem error_log_rate_limited (last : Nat) (ts : List Nat) (w : Nat) :
    (logSeq last ts).length = ts.length
      ∧ ((logSeq last ts).filterMap (fun p => if p.2 then some p.1 else none))
          = errorLogTimes last ts
      ∧ List.Pairwise (fun a b => a + LOG_ERR_INTERVAL < b) (errorLogTimes last ts)
      ∧ ((errorLogTimes last ts).filter
            (fun x => decide (w ≤ x ∧ x ≤ w + LOG_ERR_INTERVAL))).length ≤ 1 := by
  refine ⟨(logSeq_error_entries last ts).2, (logSeq_error_entries last ts).1,
    errorLogTimes_pairwise last ts, ?_⟩
  set L := (errorLogTimes last ts).filter
      (fun x => decide (w ≤ x ∧ x ≤ w + LOG_ERR_INTERVAL)) with hL
  have hp : List.Pairwise (fun a b => a + LOG_ERR_INTERVAL < b) L :=
    List.Pairwise.sublist (List.filter_sublist _) (errorLogTimes_pairwise last ts)
  have hmem : ∀ x ∈ L, w ≤ x ∧ x ≤ w + LOG_ERR_INTERVAL := by
    intro x hx
    rw [hL] at hx
    exact of_decide_eq_true (List.mem_filter.mp hx).2
  rcases hcase : L with - | ⟨x, - | ⟨y, rest⟩⟩
  · simp
  · simp
  · exfalso
    rw [hcase] at hp hmem
    have hxy : x + LOG_ERR_INTERVAL < y := (List.pairwise_cons.mp hp).1 y (by simp)
    have hx := hmem x (by simp)
    have hy := hmem y (by simp)
    omega

/-! ### C5: the accepted-length statistics -/

theorem put_accStats (s : QState) (item : Batch) (r : Nat) :
    (Q.put s item r).accStats = s.accStats.update item.length := by
  rw [Q.put_eq]; split <;> rfl

theorem drain_accStats (s : QState) : (QOp.step s .drain).accStats = s.accStats := by
  by_cases h : s.queue.length = 0 <;> simp [QOp.step, Q.get, h, QState.accStats]

/-- Both put paths call `_update_stats` exactly once and drains leave the
statistics alone, so the accept statistics after a reset-free trace are the
fold of the update over the lengths of the items put. -/
theorem run_accStats : ∀ (ops : List QOp) (s : QState), QOp.reset ∉ ops →
    (Q.run s ops).accStats
      = ((putItems ops).map List.length).foldl AccStats.update s.accStats := by
  intro ops
  induction ops with
  | nil => intro s _; rfl
  | cons op ops ih =>
    intro s hr
    have hr' : QOp.reset ∉ ops := fun h => hr (List.mem_cons_of_mem _ h)
    have hop : op ≠ QOp.reset := fun h => hr (h ▸ List.mem_cons_self _ _)
    rw [Q.run_cons]
    cases op with
    | put item r =>
      have hst : QOp.step s (QOp.put item r) = Q.put s item r := rfl
      rw [hst, ih _ hr', put_accStats]
      rfl
    | drain =>
      rw [ih _ hr', drain_accStats]
      rfl
    | reset => exact absurd rfl hop

theorem foldl_update_accepted : ∀ (lens : List Nat) (v : AccStats),
    (lens.foldl AccStats.update v).accepted = v.accepted + lens.length := by
  intro lens
  induction lens with
  | nil => intro v; simp
  | cons l ls ih =>
    intro v
    rw [List.foldl_cons, ih]
    simp only [AccStats.update, List.length_cons]
    omega

theorem foldl_update_sum : ∀ (lens : List Nat) (v : AccStats),
    (lens.foldl AccStats.update v).accepted_sum = v.accepted_sum + lens.sum := by
  intro lens
  induction lens with
  | nil => intro v; simp
  | cons l ls ih =>
    intro v
    rw [List.foldl_cons, ih]
    simp only [AccStats.update, List.sum_cons]
    omega

theorem foldl_update_min_pos : ∀ (lens : List Nat) (v : AccStats),
    0 < v.accepted_min → (∀ l ∈ lens, 0 < l) →
    (lens.foldl AccStats.update v).accepted_min = lens.foldl min v.accepted_min := by
  intro lens
  induction lens with
  | nil => intro v _ _; rfl
  | cons l ls ih =>
    intro v hv hp
    have hl : 0 < l := hp l (by simp)
    have hmin : (AccStats.update v l).accepted_min = min v.accepted_min l := by
      simp only [AccStats.update, if_pos hv]
    rw [List.foldl_cons, List.foldl_cons,
      ih _ (by rw [hmin]; exact lt_min hv hl) (fun x hx => hp x (by simp [hx])), hmin]

theorem foldl_update_max_pos : ∀ (lens : List Nat) (v : AccStats),
    0 < v.accepted_max →
    (lens.foldl AccStats.update v).accepted_max = lens.foldl max v.accepted_max := by
  intro lens
  induction lens with
  | nil => intro v _; rfl
  | cons l ls ih =>
    intro v hv
    have hmax : (AccStats.update v l).accepted_max = max v.accepted_max l := by
      simp only [AccStats.update, if_pos hv]
    rw [List.foldl_cons, List.foldl_cons,
      ih _ (by rw [hmax]; exact lt_of_lt_of_le hv (le_max_left _ _)), hmax]

theorem foldl_update_avg : ∀ (lens : List Nat) (v : AccStats), lens ≠ [] →
    (lens.foldl AccStats.update v).accepted_avg
      = Q.ceilDiv (lens.foldl AccStats.update v).accepted_sum
          (lens.foldl AccStats.update v).accepted := by
  intro lens
  induction lens with
  | nil => intro v h; exact absurd rfl h
  | cons l ls ih =>
    intro v _
    by_cases hls : ls = []
    · subst hls; rfl
    · rw [List.foldl_cons]
      exact ih _ hls

/-- C5 counterexample: after a reset, accept a zero-length item and then a
one-length item; the stored `accepted_min` is 1 although the true minimum
accepted length is 0 (the `accepted_min > 0` guard conflates "unset" with a
genuine zero-length minimum). -/
theorem accepted_min_misses_zero_length :
    (Q.run (Q.reset_stats (Q.init 10)).2 [QOp.put [] 0, QOp.put [0] 0]).accepted_min
      ≠ foldlMin ((putItems [QOp.put [] 0, QOp.put [0] 0]).map List.length) := by
  decide

/-- C5 (amended): over the insertions accepted since the last reset — provided
every accepted insertion has positive length — `accepted_min` is the minimum
length, `accepted_max` the maximum, `accepted_sum` the total, `accepted` the
count, and `accepted_avg` the ceiling of `accepted_sum / accepted`; items
accepted before the reset have no influence. -/
theorem post_reset_accepted_stats (s₀ : QState) (ops : List QOp)
    (hreset : QOp.reset ∉ ops) (hne : putItems ops ≠ [])
    (hpos : ∀ b ∈ putItems ops, 0 < b.length) :
    (Q.run (Q.reset_stats s₀).2 ops).accepted = (putItems ops).length
      ∧ (Q.run (Q.reset_stats s₀).2 ops).accepted_sum
          = ((putItems ops).map List.length).sum
      ∧ (Q.run (Q.reset_stats s₀).2 ops).accepted_min
          = foldlMin ((putItems ops).map List.length)
      ∧ (Q.run (Q.reset_stats s₀).2 ops).accepted_max
          = foldlMax ((putItems ops).map List.length)
      ∧ (Q.run (Q.reset_stats s₀).2 ops).accepted_avg
          = Q.ceilDiv ((putItems ops).map List.length).sum (putItems ops).length := by
  have h := run_accStats ops (Q.reset_stats s₀).2 hreset
  have hv0 : ((Q.reset_stats s₀).2).accStats = ⟨0, 0, 0, 0, 0⟩ := rfl
  rw [hv0] at h
  have hacc : (Q.run (Q.reset_stats s₀).2 ops).accepted
      = (((putItems ops).map List.length).foldl AccStats.update ⟨0, 0, 0, 0, 0⟩).accepted :=
    congrArg AccStats.accepted h
  have hsum : (Q.run (Q.reset_stats s₀).2 ops).accepted_sum
      = (((putItems ops).map List.length).foldl AccStats.update ⟨0, 0, 0, 0, 0⟩).accepted_sum :=
    congrArg AccStats.accepted_sum h
  have hmin : (Q.run (Q.reset_stats s₀).2 ops).accepted_min
      = (((putItems ops).map List.length).foldl AccStats.update ⟨0, 0, 0, 0, 0⟩).accepted_min :=
    congrArg AccStats.accepted_min h
  have hmax : (Q.run (Q.reset_stats s₀).2 ops).accepted_max
      = (((putItems ops).map List.length).foldl AccStats.update ⟨0, 0, 0, 0, 0⟩).accepted_max :=
    congrArg AccStats.accepted_max h
  have havg : (Q.run (Q.reset_stats s₀).2 ops).accepted_avg
      = (((putItems ops).map List.length).foldl AccStats.update ⟨0, 0, 0, 0, 0⟩).accepted_avg :=
    congrArg AccStats.accepted_avg h
  rcases hpi : putItems ops with - | ⟨b, bs⟩
  · exact absurd hpi hne
  · rw [hpi] at hacc hsum hmin hmax havg hpos
    have hb : 0 < b.length := hpos b (by simp)
    have hmemb : ∀ l ∈ bs.map List.length, 0 < l := by
      intro l hl
      obtain ⟨b', hb', rfl⟩ := List.mem_map.mp hl
      exact hpos b' (List.mem_cons_of_mem _ hb')
    refine ⟨?_, ?_, ?_, ?_, ?_⟩
    · rw [hacc, foldl_update_accepted]
      simp
    · rw [hsum, foldl_update_sum]
      simp
    · rw [hmin]
      show ((b.length :: bs.map List.length).foldl AccStats.update ⟨0, 0, 0, 0, 0⟩).accepted_min
          = foldlMin (b.length :: bs.map List.length)
      rw [List.foldl_cons]
      have hstep : (AccStats.update ⟨0, 0, 0, 0, 0⟩ b.length).accepted_min = b.length := rfl
      rw [foldl_update_min_pos _ _ (by rw [hstep]; exact hb) hmemb, hstep]
      rfl
    · rw [hmax]
      show ((b.length :: bs.map List.length).foldl AccStats.update ⟨0, 0, 0, 0, 0⟩).accepted_max
          = foldlMax (b.length :: bs.map List.length)
      rw [List.foldl_cons]
      have hstep : (AccStats.update ⟨0, 0, 0, 0, 0⟩ b.length).accepted_max = b.length := rfl
      rw [foldl_update_max_pos _ _ (by rw [hstep]; exact hb), hstep]
      rfl
    · rw [havg]
      have hne2 : ((b :: bs).map List.length) ≠ [] := by simp
      rw [foldl_update_avg _ _ hne2, foldl_update_accepted, foldl_update_sum]
      simp

/-- Witness for C5 (amended): two positive-length insertions around a drain. -/
theorem post_reset_accepted_stats_witness :
    (Q.run (Q.reset_stats (Q.init 2)).2 [QOp.put [1, 2] 0, QOp.drain, QOp.put [3] 1]).accepted
        = (putItems [QOp.put [1, 2] 0, QOp.drain, QOp.put [3] 1]).length
      ∧ (Q.run (Q.reset_stats (Q.init 2)).2 [QOp.put [1, 2] 0, QOp.drain, QOp.put [3] 1]).accepted_sum
          = ((putItems [QOp.put [1, 2] 0, QOp.drain, QOp.put [3] 1]).map List.length).sum
      ∧ (Q.run (Q.reset_stats (Q.init 2)).2 [QOp.put [1, 2] 0, QOp.drain, QOp.put [3] 1]).accepted_min
          = foldlMin ((putItems [QOp.put [1, 2] 0, QOp.drain, QOp.put [3] 1]).map List.length)
      ∧ (Q.run (Q.reset_stats (Q.init 2)).2 [QOp.put [1, 2] 0, QOp.drain, QOp.put [3] 1]).accepted_max
          = foldlMax ((putItems [QOp.put [1, 2] 0, QOp.drain, QOp.put [3] 1]).map List.length)
      ∧ (Q.run (Q.reset_stats (Q.init 2)).2 [QOp.put [1, 2] 0, QOp.drain, QOp.put [3] 1]).accepted_avg
          = Q.ceilDiv ((putItems [QOp.put [1, 2] 0, QOp.drain, QOp.put [3] 1]).map List.length).sum
              (putItems [QOp.put [1, 2] 0, QOp.drain, QOp.put [3] 1]).length :=
  post_reset_accepted_stats (Q.init 2) [QOp.put [1, 2] 0, QOp.drain, QOp.put [3] 1]
    (by decide) (by decide) (by decide)

/-- Witness for C1 (amended) on a concrete trace: three puts into a capacity-1
queue with a drain in between. -/
theorem accepted_dropped_accounting_witness :
    (Q.run (Q.init 1) [QOp.put [5] 0, QOp.put [6, 7] 1, QOp.drain, QOp.put [8] 0]).accepted
        = (Q.init 1).accepted
          + putAttempts [QOp.put [5] 0, QOp.put [6, 7] 1, QOp.drain, QOp.put [8] 0]
      ∧ (Q.run (Q.init 1) [QOp.put [5] 0, QOp.put [6, 7] 1, QOp.drain, QOp.put [8] 0]).dropped
          = (Q.init 1).dropped
            + overwriteCount (Q.init 1) [QOp.put [5] 0, QOp.put [6, 7] 1, QOp.drain, QOp.put [8] 0]
      ∧ (Q.run (Q.init 1) [QOp.put [5] 0, QOp.put [6, 7] 1, QOp.drain, QOp.put [8] 0]).accepted
            + (Q.run (Q.init 1) [QOp.put [5] 0, QOp.put [6, 7] 1, QOp.drain, QOp.put [8] 0]).dropped
          = (Q.init 1).accepted + (Q.init 1).dropped
            + putAttempts [QOp.put [5] 0, QOp.put [6, 7] 1, QOp.drain, QOp.put [8] 0]
            + overwriteCount (Q.init 1) [QOp.put [5] 0, QOp.put [6, 7] 1, QOp.drain, QOp.put [8] 0] :=
  accepted_dropped_accounting (Q.init 1)
    [QOp.put [5] 0, QOp.put [6, 7] 1, QOp.drain, QOp.put [8] 0] (by decide)


/-! ### Filter chain: loop characterization -/

/-- When the outer filter loop returns normally, its output is the in-order
`filterMap` of the per-trace chain outcome, no trace raised, and the output
length plus the number of dropped traces is the input length. -/
theorem filterLoop_ok_spec : ∀ (fs : List TraceFilter) (ts out : List Batch),
    filterLoop fs ts = Except.ok out →
    out = ts.filterMap (chainResult fs)
      ∧ (∀ t ∈ ts, ∃ o, runFilterLoop fs t = Except.ok o)
      ∧ out.length + (ts.filter (droppedByChain fs)).length = ts.length := by
  intro fs ts
  induction ts with
  | nil =>
    intro out h
    cases h
    exact ⟨rfl, by simp, by simp⟩
  | cons t ts ih =>
    intro out h
    cases hr : runFilterLoop fs t with
    | error e =>
      rw [filterLoop, hr] at h
      exact Except.noConfusion h
    | ok o =>
      cases o with
      | none =>
        rw [filterLoop, hr] at h
        obtain ⟨h1, h2, h3⟩ := ih out h
        refine ⟨?_, ?_, ?_⟩
        · rw [h1, List.filterMap_cons]
          simp [chainResult, hr]
        · intro x hx
          rcases List.mem_cons.mp hx with rfl | hx'
          · exact ⟨none, hr⟩
          · exact h2 x hx'
        · have hd : droppedByChain fs t = true := by simp [droppedByChain, hr]
          rw [List.filter_cons, hd]
          simp only [if_true, List.length_cons]
          omega
      | some t' =>
        rw [filterLoop, hr] at h
        cases hrest : filterLoop fs ts with
        | error e =>
          rw [hrest] at h
          exact Except.noConfusion h
        | ok rest =>
          rw [hrest] at h
          have hout : out = t' :: rest := (Except.ok.inj h).symm
          subst hout
          obtain ⟨h1, h2, h3⟩ := ih rest hrest
          refine ⟨?_, ?_, ?_⟩
          · rw [List.filterMap_cons]
            simp [chainResult, hr, h1]
          · intro x hx
            rcases List.mem_cons.mp hx with rfl | hx'
            · exact ⟨some t', hr⟩
            · exact h2 x hx'
          · have hd : droppedByChain fs t = false := by simp [droppedByChain, hr]
            rw [List.filter_cons]
            simp only [hd, Bool.false_eq_true, if_false, List.length_cons]
            omega

/-! ### C8: filter order, drop short-circuit, continuation -/

/-- C8: the filter loop applies the stages to each batch in the configured
order; a stage returning the drop sentinel makes the loop answer `ok none`
regardless of the remaining stages (they are short-circuited), the dropped
batch is excluded from the output, every subsequent batch is still processed,
and the surviving batches appear (possibly modified) in their original
relative order: the output is the in-order `filterMap` of the chain result. -/
theorem filter_chain_drop_and_order
    (f : TraceFilter) (rest rest' : List TraceFilter) (t : Batch)
    (fs : List TraceFilter) (ts out : List Batch)
    (hdrop : f t = Except.ok none) (hok : filterLoop fs ts = Except.ok out) :
    runFilterLoop (f :: rest) t = Except.ok none
      ∧ runFilterLoop (f :: rest) t = runFilterLoop (f :: rest') t
      ∧ apply_filters (some fs) ts = Except.ok (ts.filterMap (chainResult fs))
      ∧ out = ts.filterMap (chainResult fs) := by
  have h1 : runFilterLoop (f :: rest) t = Except.ok none := by
    rw [runFilterLoop, hdrop]
  have h1' : runFilterLoop (f :: rest') t = Except.ok none := by
    rw [runFilterLoop, hdrop]
  have h2 := (filterLoop_ok_spec fs ts out hok).1
  have h3 : apply_filters (some fs) ts = Except.ok (ts.filterMap (chainResult fs)) := by
    show filterLoop fs ts = _
    rw [hok, h2]
  exact ⟨h1, h1.trans h1'.symm, h3, h2⟩

/-- Witness for C8: a dropping stage short-circuits a following stage, and a
two-batch run where the first batch is dropped and the second survives. -/
theorem filter_chain_drop_and_order_witness :
    runFilterLoop
        ((fun _ => Except.ok (none : Option Batch)) :: [fun t => Except.ok (some t)]) [9]
      = Except.ok none
      ∧ runFilterLoop
            ((fun _ => Except.ok (none : Option Batch)) :: [fun t => Except.ok (some t)]) [9]
          = runFilterLoop ((fun _ => Except.ok (none : Option Batch)) :: []) [9]
      ∧ apply_filters
            (some [fun t => Except.ok (if t.length ≤ 1 then none else some t)])
            [[1], [2, 3]]
          = Except.ok
              ([[1], [2, 3]].filterMap
                (chainResult [fun t => Except.ok (if t.length ≤ 1 then none else some t)]))
      ∧ [[2, 3]]
          = [[1], [2, 3]].filterMap
              (chainResult [fun t => Except.ok (if t.length ≤ 1 then none else some t)]) :=
  filter_chain_drop_and_order
    (fun _ => Except.ok (none : Option Batch)) [fun t => Except.ok (some t)] [] [9]
    [fun t => Except.ok (if t.length ≤ 1 then none else some t)] [[1], [2, 3]] [[2, 3]]
    rfl rfl

/-! ### C10: the traces.filtered statistic -/

/-- C10: when stats are enabled and the filter chain returns normally, the
value emitted as `traces.filtered` is the filtered length minus the drained
length — zero or negative, namely the negation of the number of batches the
chain dropped, not that number itself. -/
theorem traces_filtered_stat_nonpositive
    (fs : List TraceFilter) (sp : Bool)
    (send : List Batch → List (Outcome × PayloadMeta))
    (ts out : List Batch) (h : filterLoop fs ts = Except.ok out) :
    (flush_queue true (some fs) sp send ts).traces_filtered
        = some ((out.length : Int) - (ts.length : Int))
      ∧ (out.length : Int) - (ts.length : Int)
          = -((ts.filter (droppedByChain fs)).length : Int)
      ∧ (out.length : Int) - (ts.length : Int) ≤ 0 := by
  have hlen := (filterLoop_ok_spec fs ts out h).2.2
  have happ : apply_filters (some fs) ts = Except.ok out := h
  refine ⟨?_, by omega, by omega⟩
  simp [flush_queue, happ]

/-- Witness for C10: one of two drained batches is dropped by the chain, so the
emitted value is `-1`. -/
theorem traces_filtered_stat_nonpositive_witness :
    (flush_queue true
          (some [fun t => Except.ok (if t.length ≤ 1 then none else some t)]) true
          (fun _ => []) [[1], [2, 3]]).traces_filtered
        = some ((([[2, 3]] : List Batch).length : Int) - (([[1], [2, 3]] : List Batch).length : Int))
      ∧ ((([[2, 3]] : List Batch).length : Int) - (([[1], [2, 3]] : List Batch).length : Int))
          = -((([[1], [2, 3]] : List Batch).filter
                (droppedByChain [fun t => Except.ok (if t.length ≤ 1 then none else some t)])).length : Int)
      ∧ (([[2, 3]] : List Batch).length : Int) - (([[1], [2, 3]] : List Batch).length : Int) ≤ 0 :=
  traces_filtered_stat_nonpositive
    [fun t => Except.ok (if t.length ≤ 1 then none else some t)] true
    (fun _ => []) [[1], [2, 3]] [[2, 3]] rfl

/-! ### C3: a filter exception aborts the tick -/

/-- A sequence of puts that fits within capacity appends the batches in order
(no overflow path is taken). -/
theorem putSeq_queue : ∀ (items : List (Batch × Nat)) (s : QState),
    (s.maxsize = 0 ∨ s.queue.length + items.length ≤ s.maxsize) →
    (putSeq s items).queue = s.queue ++ items.map Prod.fst
      ∧ (putSeq s items).maxsize = s.maxsize := by
  intro items
  induction items with
  | nil =>
    intro s _
    exact ⟨by simp [putSeq], rfl⟩
  | cons p ps ih =>
    intro s hfit
    have hnotfull : ¬ (0 < s.maxsize ∧ s.maxsize ≤ s.queue.length) := by
      rcases hfit with h0 | hle
      · omega
      · simp only [List.length_cons] at hle
        omega
    have hq : (Q.put s p.1 p.2).queue = s.queue ++ [p.1] := by
      rw [Q.put_eq, if_neg hnotfull, Q.update_stats_queue]
    have hm : (Q.put s p.1 p.2).maxsize = s.maxsize := Q.put_maxsize _ _ _
    have hfit' : (Q.put s p.1 p.2).maxsize = 0
        ∨ (Q.put s p.1 p.2).queue.length + ps.length ≤ (Q.put s p.1 p.2).maxsize := by
      rw [hq, hm]
      rcases hfit with h0 | hle
      · exact Or.inl h0
      · right
        simp only [List.length_append, List.length_cons, List.length_nil] at *
        omega
    obtain ⟨ih1, ih2⟩ := ih (Q.put s p.1 p.2) hfit'
    constructor
    · show (putSeq (Q.put s p.1 p.2) ps).queue = _
      rw [ih1, hq, List.append_assoc]
      rfl
    · show (putSeq (Q.put s p.1 p.2) ps).maxsize = _
      rw [ih2, hm]

/-- C3: when a filter stage raises on any drained batch, the tick sends zero
batches (the transport is never called), logs the filtering error, reports no
outcomes and updates no sampler; the drained batches are gone (the queue is
empty after the tick, nothing is re-queued), and a following tick flushes
exactly the batches enqueued after the abort. -/
theorem filter_error_aborts_cycle
    (send_stats sp : Bool) (fs : List TraceFilter)
    (send : List Batch → List (Outcome × PayloadMeta))
    (s : QState) (e : PyExn) (newItems : List (Batch × Nat))
    (happly : apply_filters (some fs) s.queue = Except.error e)
    (hfit : s.maxsize = 0 ∨ newItems.length ≤ s.maxsize) :
    (run_tick send_stats (some fs) sp send s).2
        = some { sent := none, filter_error := some e, error_reports := [],
                 sampler_updates := [], traces_filtered := none }
      ∧ ((run_tick send_stats (some fs) sp send s).1).queue = []
      ∧ (run_tick send_stats (some fs) sp send
            (putSeq (run_tick send_stats (some fs) sp send s).1 newItems)).2
          = (if newItems.map Prod.fst = [] then none
             else some (flush_queue send_stats (some fs) sp send (newItems.map Prod.fst))) := by
  have hqne : s.queue.length ≠ 0 := by
    intro h0
    rw [List.length_eq_zero] at h0
    rw [h0] at happly
    exact Except.noConfusion happly
  have htick1 : run_tick send_stats (some fs) sp send s
      = ({ s with queue := [] },
         some (flush_queue send_stats (some fs) sp send s.queue)) := by
    simp [run_tick, Q.get, hqne]
  have hflush : flush_queue send_stats (some fs) sp send s.queue
      = { sent := none, filter_error := some e, error_reports := [],
          sampler_updates := [], traces_filtered := none } := by
    simp [flush_queue, happly]
  refine ⟨?_, ?_, ?_⟩
  · rw [htick1, hflush]
  · rw [htick1]
  · rw [htick1]
    have hfit2 : ({ s with queue := [] } : QState).maxsize = 0
        ∨ ({ s with queue := [] } : QState).queue.length + newItems.length
            ≤ ({ s with queue := [] } : QState).maxsize := by
      rcases hfit with h | h
      · exact Or.inl h
      · right
        simpa using h
    obtain ⟨hq2, -⟩ := putSeq_queue newItems { s with queue := [] } hfit2
    by_cases hnew : newItems.map Prod.fst = []
    · rw [if_pos hnew]
      have hempty : (putSeq { s with queue := [] } newItems).queue = [] := by
        rw [hq2, hnew]
        simp
      simp [run_tick, Q.get, hempty]
    · rw [if_neg hnew]
      have hnil : newItems ≠ [] := by
        intro h
        rw [h] at hnew
        exact hnew rfl
      have hlen : (putSeq { s with queue := [] } newItems).queue = newItems.map Prod.fst := by
        rw [hq2]
        rfl
      have hne0 : (putSeq { s with queue := [] } newItems).queue.length ≠ 0 := by
        rw [hlen]
        intro hz
        exact hnew (List.eq_nil_of_length_eq_zero hz)
      simp [run_tick, Q.get, hne0, hlen, hnil]

/-- Witness for C3: a raising filter aborts the tick for a three-batch queue,
and the next tick flushes exactly the single newly enqueued batch. -/
theorem filter_error_aborts_cycle_witness :
    (run_tick true (some [fun _ => Except.error "boom"]) true (fun _ => [])
          { Q.init 3 with queue := [[1], [2], [3]] }).2
        = some { sent := none, filter_error := some "boom", error_reports := [],
                 sampler_updates := [], traces_filtered := none }
      ∧ ((run_tick true (some [fun _ => Except.error "boom"]) true (fun _ => [])
            { Q.init 3 with queue := [[1], [2], [3]] }).1).queue = []
      ∧ (run_tick true (some [fun _ => Except.error "boom"]) true (fun _ => [])
            (putSeq
              (run_tick true (some [fun _ => Except.error "boom"]) true (fun _ => [])
                { Q.init 3 with queue := [[1], [2], [3]] }).1
              [([7], 0)])).2
          = (if ([([7], 0)] : List (Batch × Nat)).map Prod.fst = [] then none
             else some (flush_queue true (some [fun _ => Except.error "boom"]) true
                 (fun _ => []) (([([7], 0)] : List (Batch × Nat)).map Prod.fst))) :=
  filter_error_aborts_cycle true true [fun _ => Except.error "boom"] (fun _ => [])
    { Q.init 3 with queue := [[1], [2], [3]] } "boom" [([7], 0)] rfl (Or.inr (by decide))

/-! ### C7: per-outcome dispatch to error reporting and sampler -/

/-- The responses handed to `_log_error_status` are exactly the failing
outcomes (exception or status >= 400), in order. -/
theorem processOutcomes_error_reports : ∀ (sp : Bool) (rs : List (Outcome × PayloadMeta)),
    (processOutcomes sp rs).1
      = rs.filterMap (fun p => if isFailureOutcome p.1 then some p.1 else none) := by
  intro sp rs
  induction rs with
  | nil => rfl
  | cons p rs ih =>
    obtain ⟨response, payload⟩ := p
    cases response with
    | error e =>
      simp [processOutcomes, List.filterMap_cons, isFailureOutcome, ih]
    | ok resp =>
      by_cases hs : 400 ≤ resp.status
      · simp [processOutcomes, List.filterMap_cons, isFailureOutcome, hs, ih]
      · cases sp with
        | true =>
          cases hj : resp.getJson with
          | none =>
            simp [processOutcomes, List.filterMap_cons, isFailureOutcome, hs, hj, ih]
          | some j =>
            cases hrb : j.rate_by_service with
            | none =>
              simp [processOutcomes, List.filterMap_cons, isFailureOutcome, hs, hj, hrb, ih]
            | some tbl =>
              simp [processOutcomes, List.filterMap_cons, isFailureOutcome, hs, hj, hrb, ih]
        | false =>
          simp [processOutcomes, List.filterMap_cons, isFailureOutcome, hs, ih]

/-- The tables handed to `set_sample_rate_by_service` are exactly the
`rate_by_service` tables of the successful outcomes, in order, and only when a
priority sampler is configured. -/
theorem processOutcomes_sampler_updates : ∀ (sp : Bool) (rs : List (Outcome × PayloadMeta)),
    (processOutcomes sp rs).2
      = (if sp then rs.filterMap (fun p => successRateTable p.1) else []) := by
  intro sp rs
  induction rs with
  | nil => cases sp <;> rfl
  | cons p rs ih =>
    obtain ⟨response, payload⟩ := p
    cases response with
    | error e =>
      simp [processOutcomes, List.filterMap_cons, successRateTable, ih]
    | ok resp =>
      by_cases hs : 400 ≤ resp.status
      · simp [processOutcomes, List.filterMap_cons, successRateTable, hs, ih]
      · cases sp with
        | true =>
          cases hj : resp.getJson with
          | none =>
            simp [processOutcomes, List.filterMap_cons, successRateTable, hs, hj, ih]
          | some j =>
            cases hrb : j.rate_by_service with
            | none =>
              simp [processOutcomes, List.filterMap_cons, successRateTable, hs, hj, hrb, ih]
            | some tbl =>
              simp [processOutcomes, List.filterMap_cons, successRateTable, hs, hj, hrb, ih]
        | false =>
          simp [processOutcomes, List.filterMap_cons, successRateTable, hs, ih]

/-- C7: per outcome of a send, a failure (transport exception or HTTP status
>= 400) is handed to error reporting and contributes no sampler update; a
success whose body carries a `rate_by_service` table has exactly that table
forwarded to `set_sample_rate_by_service` during the same tick — the flush's
updates are exactly the tables of that tick's successful responses, in order,
and only when a priority sampler is configured. -/
theorem outcome_dispatch
    (sp ss : Bool) (rs : List (Outcome × PayloadMeta))
    (fl : Option (List TraceFilter))
    (send : List Batch → List (Outcome × PayloadMeta)) (ts out : List Batch)
    (h : apply_filters fl ts = Except.ok out) :
    (processOutcomes sp rs).1
        = rs.filterMap (fun p => if isFailureOutcome p.1 then some p.1 else none)
      ∧ (processOutcomes sp rs).2
          = (if sp then rs.filterMap (fun p => successRateTable p.1) else [])
      ∧ (flush_queue ss fl sp send ts).error_reports
          = (send out).filterMap (fun p => if isFailureOutcome p.1 then some p.1 else none)
      ∧ (flush_queue ss fl sp send ts).sampler_updates
          = (if sp then (send out).filterMap (fun p => successRateTable p.1) else []) := by
  refine ⟨processOutcomes_error_reports sp rs, processOutcomes_sampler_updates sp rs, ?_, ?_⟩
  · have : (flush_queue ss fl sp send ts).error_reports = (processOutcomes sp (send out)).1 := by
      simp [flush_queue, h]
    rw [this, processOutcomes_error_reports]
  · have : (flush_queue ss fl sp send ts).sampler_updates = (processOutcomes sp (send out)).2 := by
      simp [flush_queue, h]
    rw [this, processOutcomes_sampler_updates]

/-- Witness for C7: one transport exception, one HTTP 500, one success carrying
a `rate_by_service` table. -/
theorem outcome_dispatch_witness :
    (processOutcomes true
          [(Except.error "net", ⟨10, 1, 2⟩), (Except.ok ⟨500, none⟩, ⟨5, 1, 1⟩),
           (Except.ok ⟨200, some ⟨some [("svc-a", 1)]⟩⟩, ⟨7, 2, 3⟩)]).1
        = [(Except.error "net", (⟨10, 1, 2⟩ : PayloadMeta)),
           (Except.ok ⟨500, none⟩, (⟨5, 1, 1⟩ : PayloadMeta)),
           (Except.ok ⟨200, some ⟨some [("svc-a", 1)]⟩⟩, (⟨7, 2, 3⟩ : PayloadMeta))].filterMap
            (fun p => if isFailureOutcome p.1 then some p.1 else none)
      ∧ (processOutcomes true
            [(Except.error "net", ⟨10, 1, 2⟩), (Except.ok ⟨500, none⟩, ⟨5, 1, 1⟩),
             (Except.ok ⟨200, some ⟨some [("svc-a", 1)]⟩⟩, ⟨7, 2, 3⟩)]).2
          = (if true then
               [(Except.error "net", (⟨10, 1, 2⟩ : PayloadMeta)),
                (Except.ok ⟨500, none⟩, (⟨5, 1, 1⟩ : PayloadMeta)),
                (Except.ok ⟨200, some ⟨some [("svc-a", 1)]⟩⟩, (⟨7, 2, 3⟩ : PayloadMeta))].filterMap
                 (fun p => successRateTable p.1)
             else [])
      ∧ (flush_queue true none true
            (fun _ => [(Except.ok ⟨200, some ⟨some [("svc-a", 1)]⟩⟩, ⟨7, 2, 3⟩)])
            [[1]]).error_reports
          = ((fun (_ : List Batch) =>
                [(Except.ok (⟨200, some ⟨some [("svc-a", 1)]⟩⟩ : ApiResponse),
                  (⟨7, 2, 3⟩ : PayloadMeta))]) [[1]]).filterMap
              (fun p => if isFailureOutcome p.1 then some p.1 else none)
      ∧ (flush_queue true none true
            (fun _ => [(Except.ok ⟨200, some ⟨some [("svc-a", 1)]⟩⟩, ⟨7, 2, 3⟩)])
            [[1]]).sampler_updates
          = (if true then
               ((fun (_ : List Batch) =>
                  [(Except.ok (⟨200, some ⟨some [("svc-a", 1)]⟩⟩ : ApiResponse),
                    (⟨7, 2, 3⟩ : PayloadMeta))]) [[1]]).filterMap
                 (fun p => successRateTable p.1)
             else []) :=
  outcome_dispatch true true
    [(Except.error "net", ⟨10, 1, 2⟩), (Except.ok ⟨500, none⟩, ⟨5, 1, 1⟩),
     (Except.ok ⟨200, some ⟨some [("svc-a", 1)]⟩⟩, ⟨7, 2, 3⟩)]
    none
    (fun _ => [(Except.ok ⟨200, some ⟨some [("svc-a", 1)]⟩⟩, ⟨7, 2, 3⟩)])
    [[1]] [[1]] rfl
